import Mathlib

/-!
Verification development for the market-dashboard repository
(single source file `dashboard.py`).

The embedding models the per-ticker data-preparation and metrics pipeline:

* `PVal α` models a pandas/numpy float cell: a finite numeric value,
  positive or negative infinity, or NaN (the missing-value marker).
  The arithmetic below follows IEEE-754 semantics as implemented by
  numpy (division of a nonzero number by zero is a signed infinity,
  0/0 is NaN, NaN propagates through every operation).
* price tables, the `% Change` computation of `current()`, the
  forecast-input cleaning of `forecast()`, the metrics of
  `get_metrics()`, the fundamentals retrievers, and their caches are
  embedded one by one next to the corresponding source lines.
-/

set_option linter.unusedSectionVars false

namespace StockDash

/-- PVal models one cell of a pandas float column: either a finite
numeric value, one of the two infinities, or NaN. -/
inductive PVal (α : Type) where
  | num (x : α)
  | inf
  | neginf
  | nan
deriving DecidableEq

namespace PVal

variable {α : Type} [Field α] [LinearOrder α]

/-- NaN test, as used by `dropna` / `isna`. Infinities are not NaN. -/
def isNan : PVal α → Bool
  | .nan => true
  | _ => false

/-- Finite-number test. -/
def isNum : PVal α → Bool
  | .num _ => true
  | _ => false

/-- IEEE negation. -/
def neg : PVal α → PVal α
  | .num a => .num (-a)
  | .inf => .neginf
  | .neginf => .inf
  | .nan => .nan

/-- IEEE addition: NaN propagates, inf + (-inf) is NaN. -/
def add : PVal α → PVal α → PVal α
  | .nan, _ => .nan
  | _, .nan => .nan
  | .num a, .num b => .num (a + b)
  | .inf, .neginf => .nan
  | .neginf, .inf => .nan
  | .inf, _ => .inf
  | _, .inf => .inf
  | .neginf, _ => .neginf
  | _, .neginf => .neginf

/-- IEEE subtraction. -/
def sub (a b : PVal α) : PVal α := a.add b.neg

/-- IEEE multiplication: NaN propagates, inf * 0 is NaN. -/
def mul : PVal α → PVal α → PVal α
  | .nan, _ => .nan
  | _, .nan => .nan
  | .num a, .num b => .num (a * b)
  | .num a, .inf => if 0 < a then .inf else if a < 0 then .neginf else .nan
  | .num a, .neginf => if 0 < a then .neginf else if a < 0 then .inf else .nan
  | .inf, .num b => if 0 < b then .inf else if b < 0 then .neginf else .nan
  | .neginf, .num b => if 0 < b then .neginf else if b < 0 then .inf else .nan
  | .inf, .inf => .inf
  | .inf, .neginf => .neginf
  | .neginf, .inf => .neginf
  | .neginf, .neginf => .inf

/-- IEEE division as numpy performs it: a nonzero finite number divided
by zero gives a signed infinity, 0/0 gives NaN, NaN propagates. -/
def div : PVal α → PVal α → PVal α
  | .nan, _ => .nan
  | _, .nan => .nan
  | .num a, .num b =>
      if b = 0 then (if a = 0 then .nan else if 0 < a then .inf else .neginf)
      else .num (a / b)
  | .num _, .inf => .num 0
  | .num _, .neginf => .num 0
  | .inf, .num b => if b < 0 then .neginf else .inf
  | .neginf, .num b => if b < 0 then .inf else .neginf
  | .inf, .inf => .nan
  | .inf, .neginf => .nan
  | .neginf, .inf => .nan
  | .neginf, .neginf => .nan

@[simp] theorem isNan_num (a : α) : (PVal.num a).isNan = false := rfl

@[simp] theorem isNan_nan : (PVal.nan : PVal α).isNan = true := rfl

@[simp] theorem isNan_inf : (PVal.inf : PVal α).isNan = false := rfl

@[simp] theorem isNan_neginf : (PVal.neginf : PVal α).isNan = false := rfl

@[simp] theorem isNum_num (a : α) : (PVal.num a).isNum = true := rfl

@[simp] theorem isNum_nan : (PVal.nan : PVal α).isNum = false := rfl

@[simp] theorem isNum_inf : (PVal.inf : PVal α).isNum = false := rfl

@[simp] theorem isNum_neginf : (PVal.neginf : PVal α).isNum = false := rfl

@[simp] theorem add_num_num (a b : α) :
    (PVal.num a).add (PVal.num b) = PVal.num (a + b) := rfl

@[simp] theorem sub_num_num (a b : α) :
    (PVal.num a).sub (PVal.num b) = PVal.num (a - b) := by
  simp only [sub, neg, add]
  rw [sub_eq_add_neg]

@[simp] theorem mul_num_num (a b : α) :
    (PVal.num a).mul (PVal.num b) = PVal.num (a * b) := rfl

@[simp] theorem nan_add (v : PVal α) : PVal.nan.add v = PVal.nan := by
  cases v <;> rfl

@[simp] theorem add_nan (v : PVal α) : v.add PVal.nan = PVal.nan := by
  cases v <;> rfl

@[simp] theorem nan_mul (v : PVal α) : PVal.nan.mul v = PVal.nan := by
  cases v <;> rfl

@[simp] theorem mul_nan (v : PVal α) : v.mul PVal.nan = PVal.nan := by
  cases v <;> rfl

@[simp] theorem nan_div (v : PVal α) : PVal.nan.div v = PVal.nan := by
  cases v <;> rfl

@[simp] theorem div_nan (v : PVal α) : v.div PVal.nan = PVal.nan := by
  cases v <;> rfl

@[simp] theorem nan_sub (v : PVal α) : PVal.nan.sub v = PVal.nan := by
  cases v <;> rfl

@[simp] theorem sub_nan (v : PVal α) : v.sub PVal.nan = PVal.nan := by
  cases v <;> rfl

theorem div_num_num_of_ne (a b : α) (hb : b ≠ 0) :
    (PVal.num a).div (PVal.num b) = PVal.num (a / b) := by
  simp [div, hb]

theorem div_num_zero (a : α) :
    (PVal.num a).div (PVal.num 0) =
      (if a = 0 then PVal.nan else if 0 < a then PVal.inf else PVal.neginf) := by
  simp [div]

end PVal

/-- PVal over the rationals, embedded into PVal over the reals.
The price pipeline is computed exactly over the rationals; the metric
formulas (which involve a square root) live over the reals. -/
noncomputable def PVal.toR : PVal ℚ → PVal ℝ
  | .num q => .num (q : ℝ)
  | .inf => .inf
  | .neginf => .neginf
  | .nan => .nan

/-- One row of the yfinance download after `reset_index`: Date, Open,
High, Low, Close, optionally Adj Close, Volume.  Per the data model the
Open/High/Low/Volume columns always hold defined values; the Date,
Close and Adj Close columns (the ones the pipeline reads and cleans)
may hold a missing value, modelled by `Option` and NaN. -/
structure PriceBar where
  date : Option Int
  openPrice : ℚ
  high : ℚ
  low : ℚ
  close : PVal ℚ
  adjClose : PVal ℚ
  volume : Int
deriving DecidableEq

/-- The downloaded table: its list of bars, plus whether the frame has
an Adj Close column at all (when it does not, the `adjClose` field of
each bar is ignored by every function below). -/
structure PriceTable where
  hasAdjClose : Bool
  bars : List PriceBar
deriving DecidableEq

/-- Line 104: `price_col = "Adj Close" if "Adj Close" in data.columns
else "Close"`. -/
def selectPrice (hasAdj : Bool) (b : PriceBar) : PVal ℚ :=
  if hasAdj then b.adjClose else b.close

/-- Line 105: `data_copy[price_col] / data_copy[price_col].shift(1) - 1`.
Shifting puts NaN at index 0, so the first change is NaN and the change
at index i (i >= 1) is price[i]/price[i-1] - 1 in IEEE arithmetic. -/
def pctChangeCol (prices : List (PVal ℚ)) : List (PVal ℚ) :=
  match prices with
  | [] => []
  | _ :: tail =>
      PVal.nan ::
        List.zipWith (fun cur prev => (cur.div prev).sub (PVal.num 1)) tail prices

/-- The frame `data_copy` after line 105: every original row paired
with its `% Change` cell. -/
def addPctChange (t : PriceTable) : List (PriceBar × PVal ℚ) :=
  t.bars.zip (pctChangeCol (t.bars.map (selectPrice t.hasAdjClose)))

/-- Whether `dropna` removes a row of `data_copy` (line 106): a row is
removed when any of its cells is missing.  The Open/High/Low/Volume
cells are always defined, so only Date, Close, the Adj Close cell (when
that column exists) and `% Change` can trigger removal. -/
def rowHasNa (hasAdj : Bool) (r : PriceBar × PVal ℚ) : Bool :=
  r.1.date.isNone || r.1.close.isNan || (hasAdj && r.1.adjClose.isNan) || r.2.isNan

/-- Lines 103-106: the cleaned `data_copy` handed to `st.write` and
`get_metrics` in the Stock Overview view. -/
def cleanReturns (t : PriceTable) : List (PriceBar × PVal ℚ) :=
  (addPctChange t).filter (fun r => ! rowHasNa t.hasAdjClose r)

/-- Non-NaN cells of a column; pandas reductions (`mean`, `std`) skip
NaN cells. -/
def pandasClean {α : Type} (xs : List (PVal α)) : List (PVal α) :=
  xs.filter (fun v => ! v.isNan)

/-- Sum of a float column in IEEE arithmetic. -/
def pvalSum {α : Type} [Field α] [LinearOrder α] (xs : List (PVal α)) : PVal α :=
  xs.foldr PVal.add (PVal.num 0)

/-- Mean of a pandas float column: NaN cells are skipped and the mean
of an empty column is NaN. -/
def pandasMean {α : Type} [Field α] [LinearOrder α] (xs : List (PVal α)) : PVal α :=
  let ys := pandasClean xs
  if ys.isEmpty then PVal.nan
  else (pvalSum ys).div (PVal.num (ys.length : α))

/-- Square root lifted to float cells: the square root of a negative
number or of NaN is NaN. -/
noncomputable def sqrtVal : PVal ℝ → PVal ℝ
  | .num v => if v < 0 then PVal.nan else PVal.num (Real.sqrt v)
  | .inf => .inf
  | .neginf => .nan
  | .nan => .nan

/-- Population standard deviation of a float column, the quantity
computed by `np.std(series)` on line 87 (delegated to the series with
`ddof = 0`, so NaN cells are skipped and the divisor is the cell
count). -/
noncomputable def pandasStd (xs : List (PVal ℝ)) : PVal ℝ :=
  let ys := pandasClean xs
  if ys.isEmpty then PVal.nan
  else
    sqrtVal
      ((pvalSum (ys.map (fun v => (v.sub (pandasMean xs)).mul (v.sub (pandasMean xs))))).div
        (PVal.num (ys.length : ℝ)))

/-- The three statistics shown by `get_metrics` (lines 85-90):
`annual_return` and `st_dev` are the displayed Annual Return and
Standard Deviation values, `risk_adjusted` the displayed Risk Adjusted
Return.  The display applies `round(x, 4)` as pure formatting, which is
not modelled. -/
structure MetricsSummary where
  annual_return : PVal ℝ
  st_dev : PVal ℝ
  risk_adjusted : PVal ℝ

/-- Lines 85-90 of the source:
annual_return = mean(pct) * 252 * 100,
st_dev = std(pct) * sqrt(252)  (note: no factor 100 here),
risk adjusted = annual_return / (st_dev * 100). -/
noncomputable def get_metrics (pct : List (PVal ℝ)) : MetricsSummary :=
  let annual_return := ((pandasMean pct).mul (PVal.num 252)).mul (PVal.num 100)
  let st_dev := (pandasStd pct).mul (PVal.num (Real.sqrt 252))
  { annual_return := annual_return
    st_dev := st_dev
    risk_adjusted := annual_return.div (st_dev.mul (PVal.num 100)) }

/-- Possible outcomes of the Stock Overview view (`current()`,
lines 92-109).  Note the view has no empty-after-cleaning branch: after
`dropna` it always writes the frame and calls `get_metrics`. -/
inductive CurrentOutcome where
  | emptyTickerWarning
  | invalidTickerError
  | display (rows : List (PriceBar × PVal ℚ)) (metrics : MetricsSummary)

/-- Lines 96-109 of `current()`, after the ticker guard: an empty
download is reported as an invalid ticker, otherwise the cleaned frame
is displayed and `get_metrics` is called on its `% Change` column. -/
noncomputable def currentLoaded (data : PriceTable) : CurrentOutcome :=
  if data.bars.isEmpty then CurrentOutcome.invalidTickerError
  else
    let dc := cleanReturns data
    CurrentOutcome.display dc (get_metrics (dc.map (fun r => r.2.toR)))

/-- The whole Stock Overview view: `if not ticker` fires exactly on the
empty string (Python string falsiness); otherwise the ticker is passed
to the data source (`load_data`, modelled as the function `src`). -/
noncomputable def current (ticker : String) (src : String → PriceTable) :
    CurrentOutcome :=
  if ticker = "" then CurrentOutcome.emptyTickerWarning
  else currentLoaded (src ticker)

/-- Possible outcomes of the Stock Forecast view (`forecast()`,
lines 177-220).  `fitted` carries the cleaned (ds, y) frame handed to
the Prophet adapter; the adapter itself is an external collaborator and
is not modelled. -/
inductive ForecastOutcome where
  | emptyTickerWarning
  | invalidTickerError
  | missingColumnsError
  | emptyAfterCleaningError
  | fitted (df_train : List (Option Int × PVal ℚ))
deriving DecidableEq

/-- Line 207: `pd.to_numeric(df_train["y"], errors="coerce")`.  The y
column comes from a float price column, so every cell is already a
number or NaN and the coercion is the identity. -/
def to_numeric (v : PVal ℚ) : PVal ℚ := v

/-- Lines 197-208: select (Date, Close), rename to (ds, y), drop rows
with a missing ds or y, coerce y to numeric, drop rows where y is
missing after coercion.  In the PriceBar model a Close column is always
present, so `price_col` is always Close (line 187-188). -/
def forecastClean (t : PriceTable) : List (Option Int × PVal ℚ) :=
  let df1 := t.bars.map (fun b => (b.date, b.close))
  let df2 := df1.filter (fun r => r.1.isSome && ! r.2.isNan)
  let df3 := df2.map (fun r => (r.1, to_numeric r.2))
  df3.filter (fun r => ! r.2.isNan)

/-- Lines 181-218 of `forecast()` after the ticker guard.  The
missing-columns branch (lines 192-195) is unreachable in the PriceBar
model because Date and Close columns always exist. -/
def forecastLoaded (t : PriceTable) : ForecastOutcome :=
  if t.bars.isEmpty then ForecastOutcome.invalidTickerError
  else
    let df := forecastClean t
    if df.isEmpty then ForecastOutcome.emptyAfterCleaningError
    else ForecastOutcome.fitted df

/-- The whole Stock Forecast view, with the same ticker guard as the
other views. -/
def forecast (ticker : String) (src : String → PriceTable) : ForecastOutcome :=
  if ticker = "" then ForecastOutcome.emptyTickerWarning
  else forecastLoaded (src ticker)

/-- One article returned by the news source (lines 228-238). -/
structure Article where
  title : String
  published : String
  summary : String
  sentiment_title : ℚ
  sentiment_summary : ℚ
deriving DecidableEq

/-- Outcomes of the Market News view. -/
inductive NewsOutcome where
  | emptyTickerWarning
  | shown (articles : List Article)
deriving DecidableEq

/-- Lines 222-238: the ticker guard, then the first
`min(10, len(df_news))` articles are rendered. -/
def news (ticker : String) (src : String → List Article) : NewsOutcome :=
  if ticker = "" then NewsOutcome.emptyTickerWarning
  else NewsOutcome.shown ((src ticker).take 10)

/-- A raw fundamentals table as returned by the Alpha Vantage client in
pandas format: one row per annual report; the first cell of each row is
the period-end date (fiscalDateEnding), the second the reported
currency, then the statement figures. -/
structure Table (α : Type) where
  rows : List (List α)
deriving DecidableEq

/-- The pandas transpose `df.T` of a rectangular frame: column j of the
input becomes row j of the output. -/
def dfT {α : Type} (rows : List (List α)) : List (List α) :=
  (List.range (rows.headD []).length).map (fun j => rows.filterMap (fun r => r[j]?))

/-- A column label of the transposed frame: either a position of the
default integer index (`RangeIndex`) or a data cell installed by an
explicit `columns = ...` assignment. -/
inductive ColLabel (α : Type) where
  | idx (n : Nat)
  | cell (a : α)
deriving DecidableEq

/-- A labelled frame: the transposed statement returned to the
Fundamentals view. -/
structure LTable (α : Type) where
  colLabels : List (ColLabel α)
  rows : List (List α)
deriving DecidableEq

/-- Lines 112-119: `bs = balance_sheet.T[2:]` and
`bs.columns = list(balance_sheet.T.iloc[0])`; an empty frame is
reported as an invalid ticker and nothing is returned. -/
def get_balance_sheet {α : Type} (m : Table α) : Option (LTable α) :=
  if m.rows.isEmpty then none
  else
    let t := dfT m.rows
    some { colLabels := (t.headD []).map ColLabel.cell, rows := t.drop 2 }

/-- Lines 122-128: `ics = income_statement.T[2:]` and nothing else:
unlike the other two retrievers, the column labels are never assigned,
so the transposed frame keeps its default integer labels 0..r-1 (the
row index of the source frame). -/
def get_income_statement {α : Type} (m : Table α) : Option (LTable α) :=
  if m.rows.isEmpty then none
  else
    let t := dfT m.rows
    some { colLabels := (List.range m.rows.length).map ColLabel.idx, rows := t.drop 2 }

/-- Lines 131-138: `cf = cash_flow.T[2:]` and
`cf.columns = list(cash_flow.T.iloc[0])`. -/
def get_cashflow_statement {α : Type} (m : Table α) : Option (LTable α) :=
  if m.rows.isEmpty then none
  else
    let t := dfT m.rows
    some { colLabels := (t.headD []).map ColLabel.cell, rows := t.drop 2 }

/-- The Alpha Vantage client handle `fd`, abstracted as its three fetch
operations; the ticker is a global read inside each retriever. -/
structure FDHandle (α : Type) where
  fetchBalance : String → Table α
  fetchIncome : String → Table α
  fetchCashflow : String → Table α

/-- The memo state of the three cached retrievers.  The `fd` argument
is written `_fd` in the source, and a leading underscore tells the
caching decorator to leave that argument out of the cache key; the
global ticker is not an argument at all, so the key of each retriever
is just the retriever itself: one memo slot per function. -/
structure FundCache (α : Type) where
  balance : Option (Option (LTable α))
  income : Option (Option (LTable α))
  cashflow : Option (Option (LTable α))

/-- The `@st.cache_resource` wrapper around `get_balance_sheet`
(lines 111-119): on a hit the memoised value is returned unchanged; on
a miss the body runs with the current ticker and the result is
stored. -/
def get_balance_sheet_cached {α : Type} (fd : FDHandle α) (ticker : String)
    (c : FundCache α) : Option (LTable α) × FundCache α :=
  match c.balance with
  | some v => (v, c)
  | none =>
      let v := get_balance_sheet (fd.fetchBalance ticker)
      (v, { c with balance := some v })

/-- The `@st.cache_resource` wrapper around `get_income_statement`
(lines 121-128). -/
def get_income_statement_cached {α : Type} (fd : FDHandle α) (ticker : String)
    (c : FundCache α) : Option (LTable α) × FundCache α :=
  match c.income with
  | some v => (v, c)
  | none =>
      let v := get_income_statement (fd.fetchIncome ticker)
      (v, { c with income := some v })

/-- The `@st.cache_data` wrapper around `get_cashflow_statement`
(lines 130-138); for key purposes it behaves like the other two. -/
def get_cashflow_statement_cached {α : Type} (fd : FDHandle α) (ticker : String)
    (c : FundCache α) : Option (LTable α) × FundCache α :=
  match c.cashflow with
  | some v => (v, c)
  | none =>
      let v := get_cashflow_statement (fd.fetchCashflow ticker)
      (v, { c with cashflow := some v })

/-- Arithmetic mean of a finite return series. -/
noncomputable def listMean (rs : List ℝ) : ℝ := rs.sum / rs.length

/-- Population variance of a finite return series. -/
noncomputable def popVariance (rs : List ℝ) : ℝ :=
  (rs.map (fun x => (x - listMean rs) * (x - listMean rs))).sum / rs.length

/-- Population standard deviation of a finite return series. -/
noncomputable def popStdDev (rs : List ℝ) : ℝ := Real.sqrt (popVariance rs)

/-- The annualised-return formula exactly as the spec states it:
mean(percentChange) x 252 x 100. -/
noncomputable def specAnnualReturnPct (rs : List ℝ) : ℝ := listMean rs * 252 * 100

/-- The annualised standard deviation exactly as the spec states it:
populationStdDev(percentChange) x sqrt(252) x 100. -/
noncomputable def specStdDevPct (rs : List ℝ) : ℝ :=
  popStdDev rs * Real.sqrt 252 * 100

/-- The risk-adjusted-return formula exactly as the spec states it:
annualReturnPct / (stdDevPct / 100). -/
noncomputable def specRiskAdjusted (rs : List ℝ) : ℝ :=
  specAnnualReturnPct rs / (specStdDevPct rs / 100)

/-- The return series named by the spec's reproduce-exactly property. -/
noncomputable def exampleSeries : List ℝ := [0.01, -0.02, 0.015, 0]

/-- Day one of the spec's end-to-end scenario: close 100. -/
def exBar1 : PriceBar := ⟨some 1, 100, 101, 99, PVal.num 100, PVal.nan, 1000⟩

/-- Day two of the spec's end-to-end scenario: close 110. -/
def exBar2 : PriceBar := ⟨some 2, 110, 111, 109, PVal.num 110, PVal.nan, 1200⟩

/-- Day three of the spec's end-to-end scenario: close 99. -/
def exBar3 : PriceBar := ⟨some 3, 99, 100, 98, PVal.num 99, PVal.nan, 900⟩

/-- Three trading days with closes [100, 110, 99], no Adj Close
column. -/
def exTable3 : PriceTable := ⟨false, [exBar1, exBar2, exBar3]⟩

/-- A table with a single valid price bar. -/
def exOneBarTable : PriceTable := ⟨false, [exBar1]⟩

/-- The empty download of an invalid ticker. -/
def exEmptyTable : PriceTable := ⟨false, []⟩

/-- A bar whose Close cell is missing. -/
def exBadBar : PriceBar := ⟨some 1, 100, 101, 99, PVal.nan, PVal.nan, 1000⟩

/-- A non-empty table whose only bar has a missing Close, so the
forecast-input cleaning removes every row. -/
def exBadTable : PriceTable := ⟨false, [exBadBar]⟩

/-- A fundamentals frame with two annual reports; each row starts with
the period-end date, then the currency, then a figure. -/
def exFund : Table String :=
  ⟨[["2023-12-31", "USD", "10"], ["2022-12-31", "USD", "7"]]⟩

/-- A different fundamentals frame, returned for a second ticker. -/
def exFundB : Table String := ⟨[["2021-12-31", "EUR", "5"]]⟩

/-- A client handle whose fetches answer exFund for ticker AAA and
exFundB otherwise. -/
def exFd : FDHandle String :=
  ⟨fun t => if t = "AAA" then exFund else exFundB,
   fun t => if t = "AAA" then exFund else exFundB,
   fun t => if t = "AAA" then exFund else exFundB⟩

/-- The empty memo state at session start. -/
def exCache0 : FundCache String := ⟨none, none, none⟩

theorem isEmpty_false_of_ne_nil {α : Type} {l : List α} (h : l ≠ []) :
    l.isEmpty = false := by
  cases l with
  | nil => exact absurd rfl h
  | cons a t => rfl

theorem popVariance_nonneg (rs : List ℝ) : 0 ≤ popVariance rs := by
  unfold popVariance
  apply div_nonneg
  · apply List.sum_nonneg
    intro x hx
    obtain ⟨y, hy, rfl⟩ := List.mem_map.mp hx
    exact mul_self_nonneg _
  · exact Nat.cast_nonneg _

theorem pandasClean_map_num {α : Type} [Field α] [LinearOrder α] (rs : List α) :
    pandasClean (rs.map PVal.num) = rs.map PVal.num := by
  unfold pandasClean
  rw [List.filter_eq_self]
  intro v hv
  obtain ⟨q, hq, rfl⟩ := List.mem_map.mp hv
  simp

theorem pvalSum_map_num {α : Type} [Field α] [LinearOrder α] (rs : List α) :
    pvalSum (rs.map PVal.num) = PVal.num rs.sum := by
  induction rs with
  | nil => simp [pvalSum]
  | cons a t ih =>
    simp only [List.map_cons, pvalSum, List.foldr_cons] at *
    rw [ih, PVal.add_num_num, List.sum_cons]

theorem map_num_isEmpty_false (rs : List ℝ) (h : rs ≠ []) :
    (rs.map PVal.num).isEmpty = false := by
  cases rs with
  | nil => exact absurd rfl h
  | cons a t => rfl

theorem pandasMean_map_num (rs : List ℝ) (h : rs ≠ []) :
    pandasMean (rs.map PVal.num) = PVal.num (listMean rs) := by
  have hlen : (0 : ℝ) < rs.length := by
    exact_mod_cast List.length_pos.mpr h
  unfold pandasMean
  dsimp only
  rw [pandasClean_map_num, pvalSum_map_num, map_num_isEmpty_false rs h]
  simp only [Bool.false_eq_true, if_false, List.length_map]
  rw [PVal.div_num_num_of_ne _ _ (ne_of_gt hlen)]
  rfl

theorem pandasStd_map_num (rs : List ℝ) (h : rs ≠ []) :
    pandasStd (rs.map PVal.num) = PVal.num (popStdDev rs) := by
  have hlen : (0 : ℝ) < rs.length := by
    exact_mod_cast List.length_pos.mpr h
  unfold pandasStd
  dsimp only
  rw [pandasClean_map_num, map_num_isEmpty_false rs h]
  simp only [Bool.false_eq_true, if_false]
  rw [pandasMean_map_num rs h]
  have hmap : ∀ (l : List ℝ) (c : ℝ), (l.map PVal.num).map
      (fun v => (v.sub (PVal.num c)).mul (v.sub (PVal.num c)))
      = (l.map (fun x => (x - c) * (x - c))).map PVal.num := by
    intro l c
    induction l with
    | nil => rfl
    | cons a t ih =>
      simp only [List.map_cons, ih]
      simp
  rw [hmap rs (listMean rs), pvalSum_map_num, List.length_map,
    PVal.div_num_num_of_ne _ _ (ne_of_gt hlen)]
  have hv : (rs.map (fun x => (x - listMean rs) * (x - listMean rs))).sum / (rs.length : ℝ)
      = popVariance rs := rfl
  rw [hv]
  simp only [sqrtVal]
  rw [if_neg (not_lt.mpr (popVariance_nonneg rs))]
  rfl

theorem get_metrics_map_num (rs : List ℝ) (h : rs ≠ []) :
    get_metrics (rs.map PVal.num) =
      { annual_return := PVal.num (listMean rs * 252 * 100)
        st_dev := PVal.num (popStdDev rs * Real.sqrt 252)
        risk_adjusted :=
          (PVal.num (listMean rs * 252 * 100)).div
            (PVal.num (popStdDev rs * Real.sqrt 252 * 100)) } := by
  unfold get_metrics
  rw [pandasMean_map_num rs h, pandasStd_map_num rs h]
  simp [PVal.mul_num_num]

theorem get_metrics_nil :
    get_metrics ([] : List (PVal ℝ)) =
    { annual_return := PVal.nan, st_dev := PVal.nan, risk_adjusted := PVal.nan } := by
  unfold get_metrics pandasMean pandasStd pandasClean
  simp

theorem exampleSeries_ne_nil : exampleSeries ≠ [] := by
  unfold exampleSeries
  exact List.cons_ne_nil _ _

theorem exampleSeries_mean : listMean exampleSeries = 0.00125 := by
  unfold exampleSeries listMean
  norm_num

theorem exampleSeries_var : popVariance exampleSeries = 0.0001796875 := by
  unfold exampleSeries popVariance listMean
  norm_num

theorem exampleSeries_std_pos : 0 < popStdDev exampleSeries := by
  apply Real.sqrt_pos.mpr
  rw [exampleSeries_var]
  norm_num

theorem sqrt252_pos : 0 < Real.sqrt 252 := Real.sqrt_pos.mpr (by norm_num)

/-- C3 (amended): for every non-empty ReturnSeries the displayed Annual
Return equals mean(percentChange) x 252 x 100, but the displayed
Standard Deviation equals populationStdDev(percentChange) x sqrt(252)
with NO factor of 100 (it is a fraction rendered with a percent
sign). -/
theorem metrics_display_formulas (rs : List ℝ) (h : rs ≠ []) :
    (get_metrics (rs.map PVal.num)).annual_return
        = PVal.num (specAnnualReturnPct rs) ∧
    (get_metrics (rs.map PVal.num)).st_dev
        = PVal.num (popStdDev rs * Real.sqrt 252) := by
  rw [get_metrics_map_num rs h]
  exact ⟨rfl, rfl⟩

/-- C3 counterexample: on the spec's own example series the displayed
Standard Deviation is not populationStdDev x sqrt(252) x 100; the code
omits the factor 100 on line 87. -/
theorem stdev_display_counterexample :
    (get_metrics (exampleSeries.map PVal.num)).st_dev
      ≠ PVal.num (specStdDevPct exampleSeries) := by
  rw [get_metrics_map_num _ exampleSeries_ne_nil]
  intro hEq
  have h1 := PVal.num.inj hEq
  have hS : 0 < popStdDev exampleSeries * Real.sqrt 252 :=
    mul_pos exampleSeries_std_pos sqrt252_pos
  unfold specStdDevPct at h1
  nlinarith [hS]

/-- C3 witness: the amended formulas evaluated on the example
series. -/
theorem metrics_display_formulas_witness :
    (get_metrics (exampleSeries.map PVal.num)).annual_return
        = PVal.num (specAnnualReturnPct exampleSeries) ∧
    (get_metrics (exampleSeries.map PVal.num)).st_dev
        = PVal.num (popStdDev exampleSeries * Real.sqrt 252) :=
  metrics_display_formulas exampleSeries exampleSeries_ne_nil

/-- C2 (amended): riskAdjustedReturnPct equals annualReturnPct divided
by stdDevPct itself (the percent-scaled standard deviation), not by
stdDevPct/100: line 90 divides annual_return by st_dev x 100 =
popStdDev x sqrt(252) x 100. -/
theorem risk_ratio_formula (rs : List ℝ) (h : rs ≠ [])
    (hv : popVariance rs ≠ 0) :
    (get_metrics (rs.map PVal.num)).risk_adjusted
      = PVal.num (specAnnualReturnPct rs / specStdDevPct rs) := by
  rw [get_metrics_map_num rs h]
  have hσ : 0 < popStdDev rs :=
    Real.sqrt_pos.mpr (lt_of_le_of_ne (popVariance_nonneg rs) (Ne.symm hv))
  have hden : popStdDev rs * Real.sqrt 252 * 100 ≠ 0 :=
    ne_of_gt (mul_pos (mul_pos hσ sqrt252_pos) (by norm_num))
  rw [PVal.div_num_num_of_ne _ _ hden]
  rfl

/-- C2 counterexample: on the spec's example series the computed
risk-adjusted return differs from annualReturnPct / (stdDevPct/100);
the code value is 100 times smaller. -/
theorem risk_ratio_spec_counterexample :
    (get_metrics (exampleSeries.map PVal.num)).risk_adjusted
      ≠ PVal.num (specRiskAdjusted exampleSeries) := by
  rw [get_metrics_map_num _ exampleSeries_ne_nil]
  have hS : 0 < popStdDev exampleSeries * Real.sqrt 252 :=
    mul_pos exampleSeries_std_pos sqrt252_pos
  have hden : popStdDev exampleSeries * Real.sqrt 252 * 100 ≠ 0 :=
    ne_of_gt (mul_pos hS (by norm_num))
  rw [PVal.div_num_num_of_ne _ _ hden]
  intro hEq
  have h1 := PVal.num.inj hEq
  have hA : listMean exampleSeries * 252 * 100 = 31.5 := by
    rw [exampleSeries_mean]
    norm_num
  unfold specRiskAdjusted specAnnualReturnPct specStdDevPct at h1
  rw [hA] at h1
  set S := popStdDev exampleSeries * Real.sqrt 252 with hSdef
  have h2 : S * 100 / 100 = S := by field_simp
  rw [h2] at h1
  have h3 : (31.5 : ℝ) / (S * 100) < 31.5 / S :=
    div_lt_div_of_pos_left (by norm_num) hS (by nlinarith [hS])
  rw [h1] at h3
  exact lt_irrefl _ h3

/-- C2 witness: the amended ratio formula evaluated on the example
series. -/
theorem risk_ratio_formula_witness :
    (get_metrics (exampleSeries.map PVal.num)).risk_adjusted
      = PVal.num (specAnnualReturnPct exampleSeries / specStdDevPct exampleSeries) :=
  risk_ratio_formula exampleSeries exampleSeries_ne_nil
    (by rw [exampleSeries_var]; norm_num)

/-- C7 (amended): when the population standard deviation of a
non-empty return series is zero, the division on line 90 raises no
exception and yields a non-finite IEEE sentinel, but that sentinel is
NaN only when the annual return is zero: a positive annual return
gives +infinity and a negative one gives -infinity. -/
theorem zero_std_sentinel (rs : List ℝ) (h : rs ≠ [])
    (hv : popVariance rs = 0) :
    (get_metrics (rs.map PVal.num)).risk_adjusted
      = (if 0 < listMean rs then PVal.inf
         else if listMean rs < 0 then PVal.neginf else PVal.nan) ∧
    ((get_metrics (rs.map PVal.num)).risk_adjusted).isNum = false := by
  have hσ : popStdDev rs = 0 := by
    unfold popStdDev
    rw [hv, Real.sqrt_zero]
  have hmain : (get_metrics (rs.map PVal.num)).risk_adjusted
      = (if 0 < listMean rs then PVal.inf
         else if listMean rs < 0 then PVal.neginf else PVal.nan) := by
    rw [get_metrics_map_num rs h, hσ]
    rw [show (0 : ℝ) * Real.sqrt 252 * 100 = 0 by ring]
    rw [PVal.div_num_zero]
    rcases lt_trichotomy (listMean rs) 0 with hμ | hμ | hμ
    · have hA : listMean rs * 252 * 100 < 0 := by nlinarith
      rw [if_neg (ne_of_lt hA), if_neg (not_lt.mpr hA.le),
        if_neg (asymm hμ), if_pos hμ]
    · have hA : listMean rs * 252 * 100 = 0 := by rw [hμ]; ring
      rw [if_pos hA, if_neg (by rw [hμ]; exact lt_irrefl 0),
        if_neg (by rw [hμ]; exact lt_irrefl 0)]
    · have hA : 0 < listMean rs * 252 * 100 := by nlinarith
      rw [if_neg (Ne.symm (ne_of_lt hA)), if_pos hA, if_pos hμ]
  refine ⟨hmain, ?_⟩
  rw [hmain]
  split_ifs <;> rfl

/-- C7 counterexample: for the constant series [0.01] the standard
deviation is zero, and the risk-adjusted value is +infinity, which is
neither an error signal (the code has none) nor a NaN result. -/
theorem zero_std_counterexample :
    (get_metrics (([0.01] : List ℝ).map PVal.num)).risk_adjusted = PVal.inf ∧
    (PVal.inf : PVal ℝ) ≠ PVal.nan := by
  refine ⟨?_, by intro hEq; exact PVal.noConfusion hEq⟩
  have hone : ([0.01] : List ℝ) ≠ [] := List.cons_ne_nil _ _
  have hvar : popVariance [0.01] = 0 := by
    unfold popVariance listMean
    norm_num
  have hσ : popStdDev [0.01] = 0 := by
    unfold popStdDev
    rw [hvar, Real.sqrt_zero]
  rw [get_metrics_map_num _ hone, hσ]
  rw [show (0 : ℝ) * Real.sqrt 252 * 100 = 0 by ring]
  rw [PVal.div_num_zero]
  have hμ : listMean [0.01] = 0.01 := by
    unfold listMean
    norm_num
  have hA : (0 : ℝ) < listMean [0.01] * 252 * 100 := by
    rw [hμ]
    norm_num
  rw [if_neg (Ne.symm (ne_of_lt hA)), if_pos hA]

/-- C7 witness: the amended sentinel statement evaluated on the
constant series [0.01], whose mean is positive, giving +infinity. -/
theorem zero_std_sentinel_witness :
    (get_metrics (([0.01] : List ℝ).map PVal.num)).risk_adjusted = PVal.inf := by
  have h := zero_std_sentinel [0.01] (List.cons_ne_nil _ _)
    (by unfold popVariance listMean; norm_num)
  rw [h.1]
  rw [if_pos (by unfold listMean; norm_num : (0 : ℝ) < listMean [0.01])]

theorem zipWith_num_of_nonzero (l1 l2 : List ℚ) (h : ∀ b ∈ l2, b ≠ 0) :
    List.zipWith (fun cur prev => (PVal.div cur prev).sub (PVal.num 1))
        (l1.map PVal.num) (l2.map PVal.num)
      = List.zipWith (fun cur prev => PVal.num (cur / prev - 1)) l1 l2 := by
  induction l1 generalizing l2 with
  | nil => simp
  | cons a t ih =>
    cases l2 with
    | nil => simp
    | cons b u =>
      have hb : b ≠ 0 := h b (List.mem_cons_self _ _)
      simp only [List.map_cons, List.zipWith_cons_cons]
      rw [ih u (fun x hx => h x (List.mem_cons_of_mem _ hx))]
      rw [PVal.div_num_num_of_ne a b hb, PVal.sub_num_num]

theorem exists_of_mem_zipWith {α β γ : Type} {f : α → β → γ} {x : γ} :
    ∀ {l1 : List α} {l2 : List β}, x ∈ List.zipWith f l1 l2 →
      ∃ y ∈ l1, ∃ z ∈ l2, x = f y z := by
  intro l1
  induction l1 with
  | nil => intro l2 hx; simp at hx
  | cons a t ih =>
    intro l2 hx
    cases l2 with
    | nil => simp at hx
    | cons b u =>
      rw [List.zipWith_cons_cons, List.mem_cons] at hx
      rcases hx with hx | hx
      · exact ⟨a, List.mem_cons_self _ _, b, List.mem_cons_self _ _, hx⟩
      · obtain ⟨y, hy, z, hz, hxz⟩ := ih hx
        exact ⟨y, List.mem_cons_of_mem _ hy, z, List.mem_cons_of_mem _ hz, hxz⟩

/-- C1: for a well-formed PriceBar table (dates present, Close cells
defined) whose selected price column is a list ps of defined non-zero
rationals, `returns` mode keeps exactly the n-1 rows with index i at
least 1, and the change of the row coming from index i is
ps[i]/ps[i-1] - 1; the undefined index-0 change is dropped. -/
theorem returns_mode_rows (t : PriceTable) (ps : List ℚ)
    (hmap : t.bars.map (selectPrice t.hasAdjClose) = ps.map PVal.num)
    (hne : t.bars ≠ [])
    (hdate : ∀ b ∈ t.bars, b.date.isSome = true)
    (hclose : ∀ b ∈ t.bars, b.close.isNan = false)
    (hnz : ∀ q ∈ ps, q ≠ 0) :
    cleanReturns t
        = t.bars.tail.zip
            (List.zipWith (fun cur prev => PVal.num (cur / prev - 1)) ps.tail ps)
      ∧ (cleanReturns t).length = t.bars.length - 1 := by
  obtain ⟨hasAdj, bars⟩ := t
  dsimp only at hmap hdate hclose ⊢
  cases bars with
  | nil => exact absurd rfl hne
  | cons b bs =>
  cases ps with
  | nil => simp at hmap
  | cons q qs =>
    have hmain : cleanReturns ⟨hasAdj, b :: bs⟩
        = bs.zip
            (List.zipWith (fun cur prev => PVal.num (cur / prev - 1)) qs (q :: qs)) := by
      unfold cleanReturns addPctChange
      dsimp only
      rw [hmap]
      have hcol : pctChangeCol ((q :: qs).map PVal.num)
          = PVal.nan ::
              List.zipWith (fun cur prev => PVal.num (cur / prev - 1)) qs (q :: qs) := by
        simp only [List.map_cons, pctChangeCol]
        rw [show (PVal.num q :: qs.map PVal.num) = (q :: qs).map PVal.num from rfl]
        rw [zipWith_num_of_nonzero qs (q :: qs) hnz]
      rw [hcol, List.zip_cons_cons, List.filter_cons]
      rw [if_neg (by simp [rowHasNa])]
      rw [List.filter_eq_self]
      intro r hr
      obtain ⟨r1, r2⟩ := r
      obtain ⟨h1, h2⟩ := List.of_mem_zip hr
      have hd : r1.date.isNone = false := by
        obtain ⟨v, hv⟩ :=
          Option.isSome_iff_exists.mp (hdate r1 (List.mem_cons_of_mem _ h1))
        rw [hv]
        rfl
      have hc : r1.close.isNan = false := hclose r1 (List.mem_cons_of_mem _ h1)
      have hadj : (hasAdj && r1.adjClose.isNan) = false := by
        cases hA : hasAdj with
        | false => rfl
        | true =>
          have hmem : selectPrice hasAdj r1 ∈ (b :: bs).map (selectPrice hasAdj) :=
            List.mem_map_of_mem _ (List.mem_cons_of_mem _ h1)
          rw [hmap] at hmem
          obtain ⟨q', hq'mem, hq'⟩ := List.mem_map.mp hmem
          have hsel : r1.adjClose = PVal.num q' := by
            rw [hA] at hq'
            unfold selectPrice at hq'
            rw [if_pos rfl] at hq'
            exact hq'.symm
          rw [hsel]
          rfl
      have hpct : r2.isNan = false := by
        obtain ⟨y, hy, z, hz, hxz⟩ := exists_of_mem_zipWith h2
        rw [hxz]
        rfl
      simp [rowHasNa, hd, hc, hadj, hpct]
    constructor
    · rw [hmain]
      rfl
    · rw [hmain]
      have hlen : bs.length = qs.length := by
        have := congrArg List.length hmap
        simpa using this
      simp [List.length_zip, List.length_zipWith, hlen]

/-- C1 witness: the spec's three-day scenario with closes
[100, 110, 99]: the cleaned frame is days two and three with changes
110/100 - 1 and 99/110 - 1, and it has length 2 = 3 - 1. -/
theorem returns_mode_rows_witness :
    cleanReturns exTable3
        = exTable3.bars.tail.zip
            (List.zipWith (fun cur prev => PVal.num (cur / prev - 1))
              ([100, 110, 99] : List ℚ).tail [100, 110, 99])
      ∧ (cleanReturns exTable3).length = exTable3.bars.length - 1 :=
  returns_mode_rows exTable3 [100, 110, 99] (by decide) (by decide)
    (by decide) (by decide) (by decide)

theorem cleanReturns_singleton (hA : Bool) (b : PriceBar) :
    cleanReturns ⟨hA, [b]⟩ = [] := by
  unfold cleanReturns addPctChange pctChangeCol
  simp [rowHasNa]

/-- C5: for the empty raw PriceBar sequence both the Overview and the
Forecast view stop with the invalid-ticker error (the rendering of
EmptyInputError) and perform no transformation and no metric
computation. -/
theorem empty_input_invalid_ticker (ticker : String) (src : String → PriceTable)
    (ht : ticker ≠ "") (h : (src ticker).bars = []) :
    current ticker src = CurrentOutcome.invalidTickerError ∧
    forecast ticker src = ForecastOutcome.invalidTickerError := by
  constructor
  · unfold current currentLoaded
    rw [if_neg ht, h]
    rfl
  · unfold forecast forecastLoaded
    rw [if_neg ht, h]
    rfl

/-- C5 witness: a non-empty ticker whose download is empty. -/
theorem empty_input_invalid_ticker_witness :
    current "A" (fun _ => exEmptyTable) = CurrentOutcome.invalidTickerError ∧
    forecast "A" (fun _ => exEmptyTable) = ForecastOutcome.invalidTickerError :=
  empty_input_invalid_ticker "A" (fun _ => exEmptyTable) (by decide) rfl

/-- C4 counterexample: a one-bar table passes the empty-download guard,
cleaning leaves zero rows, and `current` still produces a displayed
frame and a MetricsSummary (all three values NaN) instead of signaling
an empty-after-cleaning error; no such error branch exists in the
Overview view. -/
theorem single_row_metrics_counterexample :
    current "A" (fun _ => exOneBarTable)
      = CurrentOutcome.display []
          { annual_return := PVal.nan, st_dev := PVal.nan, risk_adjusted := PVal.nan } := by
  unfold current
  rw [if_neg (by decide : ¬ ("A" : String) = "")]
  show currentLoaded exOneBarTable = _
  unfold currentLoaded
  rw [if_neg (by decide : ¬ exOneBarTable.bars.isEmpty = true)]
  dsimp only
  rw [show cleanReturns exOneBarTable = [] from cleanReturns_singleton false exBar1]
  rw [List.map_nil, get_metrics_nil]

/-- C4 (amended): with a non-empty ticker, a zero-row table yields the
invalid-ticker (empty input) error, while a one-row table is NOT
reported as empty after cleaning: the view displays an empty frame and
computes a MetricsSummary whose three values are all NaN. -/
theorem short_table_behavior (ticker : String) (src : String → PriceTable)
    (ht : ticker ≠ "") :
    ((src ticker).bars = [] → current ticker src = CurrentOutcome.invalidTickerError) ∧
    (∀ b, (src ticker).bars = [b] → current ticker src
        = CurrentOutcome.display []
            { annual_return := PVal.nan, st_dev := PVal.nan,
              risk_adjusted := PVal.nan }) := by
  constructor
  · intro h0
    unfold current currentLoaded
    rw [if_neg ht, h0]
    rfl
  · intro b hb
    unfold current currentLoaded
    rw [if_neg ht]
    rcases hS : src ticker with ⟨hA, bars⟩
    rw [hS] at hb
    dsimp only at hb ⊢
    rw [hb]
    rw [if_neg (by simp : ¬ ([b] : List PriceBar).isEmpty = true)]
    simp only [cleanReturns_singleton hA b, List.map_nil, get_metrics_nil]

/-- C4 witness: the amended one-row behaviour at a concrete table. -/
theorem short_table_behavior_witness :
    current "AB" (fun _ => exOneBarTable)
      = CurrentOutcome.display []
          { annual_return := PVal.nan, st_dev := PVal.nan, risk_adjusted := PVal.nan } :=
  (short_table_behavior "AB" (fun _ => exOneBarTable) (by decide)).2 exBar1 rfl

theorem currentLoaded_ne_warning (d : PriceTable) :
    currentLoaded d ≠ CurrentOutcome.emptyTickerWarning := by
  unfold currentLoaded
  split
  · intro hEq
    exact CurrentOutcome.noConfusion hEq
  · intro hEq
    exact CurrentOutcome.noConfusion hEq

theorem forecastLoaded_ne_warning (d : PriceTable) :
    forecastLoaded d ≠ ForecastOutcome.emptyTickerWarning := by
  unfold forecastLoaded
  split
  · intro hEq
    exact ForecastOutcome.noConfusion hEq
  · dsimp only
    split
    · intro hEq
      exact ForecastOutcome.noConfusion hEq
    · intro hEq
      exact ForecastOutcome.noConfusion hEq

/-- C10: in every view the empty-ticker guard is string falsiness:
exactly the empty ticker string produces the warning, and every other
ticker (a whitespace-only one included) is forwarded unchanged to the
view body and its external data source. -/
theorem ticker_guard_falsiness (t : String) (src : String → PriceTable)
    (nsrc : String → List Article) :
    (current t src = CurrentOutcome.emptyTickerWarning ↔ t = "") ∧
    (forecast t src = ForecastOutcome.emptyTickerWarning ↔ t = "") ∧
    (news t nsrc = NewsOutcome.emptyTickerWarning ↔ t = "") ∧
    (t ≠ "" → current t src = currentLoaded (src t)
      ∧ forecast t src = forecastLoaded (src t)
      ∧ news t nsrc = NewsOutcome.shown ((nsrc t).take 10)) := by
  by_cases ht : t = ""
  · subst ht
    refine ⟨?_, ?_, ?_, ?_⟩
    · simp [current]
    · simp [forecast]
    · simp [news]
    · intro hcontra
      exact absurd rfl hcontra
  · refine ⟨?_, ?_, ?_, ?_⟩
    · unfold current
      rw [if_neg ht]
      exact iff_of_false (currentLoaded_ne_warning _) ht
    · unfold forecast
      rw [if_neg ht]
      exact iff_of_false (forecastLoaded_ne_warning _) ht
    · unfold news
      rw [if_neg ht]
      exact iff_of_false (fun hEq => NewsOutcome.noConfusion hEq) ht
    · intro _
      unfold current forecast news
      rw [if_neg ht, if_neg ht, if_neg ht]
      exact ⟨rfl, rfl, rfl⟩

/-- C10 witness: the whitespace-only ticker passes every guard and is
forwarded, while the empty ticker warns. -/
theorem ticker_guard_falsiness_witness :
    current " " (fun _ => exEmptyTable) = currentLoaded exEmptyTable ∧
    forecast " " (fun _ => exEmptyTable) = forecastLoaded exEmptyTable ∧
    news " " (fun _ => []) = NewsOutcome.shown [] := by
  have h := (ticker_guard_falsiness " " (fun _ => exEmptyTable) (fun _ => [])).2.2.2
    (by decide)
  exact ⟨h.1, h.2.1, h.2.2⟩

/-- C6: for a non-empty download, every row the Forecast view hands to
the forecasting library has a present timestamp and a numeric
(non-NaN) value, and when the cleaned frame has zero rows the view
stops with the empty-after-cleaning error instead. -/
theorem forecast_clean_rows (ticker : String) (src : String → PriceTable)
    (ht : ticker ≠ "") (hne : (src ticker).bars ≠ []) :
    (∀ df, forecast ticker src = ForecastOutcome.fitted df →
        df ≠ [] ∧ ∀ r ∈ df, r.1.isSome = true ∧ r.2.isNan = false) ∧
    (forecastClean (src ticker) = [] →
        forecast ticker src = ForecastOutcome.emptyAfterCleaningError) := by
  unfold forecast forecastLoaded
  rw [if_neg ht, isEmpty_false_of_ne_nil hne]
  simp only [Bool.false_eq_true, if_false]
  constructor
  · intro df hdf
    by_cases hc : (forecastClean (src ticker)).isEmpty = true
    · rw [if_pos hc] at hdf
      exact ForecastOutcome.noConfusion hdf
    · rw [if_neg hc] at hdf
      have hdfeq : forecastClean (src ticker) = df := ForecastOutcome.fitted.inj hdf
      constructor
      · intro hnil
        rw [hdfeq, hnil] at hc
        exact hc rfl
      · intro r hr
        rw [← hdfeq] at hr
        unfold forecastClean at hr
        dsimp only at hr
        obtain ⟨hr3, hcond⟩ := List.mem_filter.mp hr
        refine ⟨?_, by rwa [Bool.not_eq_true'] at hcond⟩
        obtain ⟨s, hs, hrs⟩ := List.mem_map.mp hr3
        obtain ⟨hs1, hscond⟩ := List.mem_filter.mp hs
        have hsome : s.1.isSome = true := by
          simp only [Bool.and_eq_true] at hscond
          exact hscond.1
        rw [← hrs]
        exact hsome
  · intro hclean
    rw [hclean]
    rfl

/-- C6 witness: a one-bar table with a missing Close cleans to zero
rows, and the view reports empty-after-cleaning. -/
theorem forecast_clean_rows_witness :
    forecast "A" (fun _ => exBadTable) = ForecastOutcome.emptyAfterCleaningError :=
  (forecast_clean_rows "A" (fun _ => exBadTable) (by decide) (by decide)).2 (by decide)

theorem filterMap_head_eq {α : Type} (a0 : α) :
    ∀ (rows : List (List α)), (∀ r ∈ rows, r ≠ []) →
      rows.filterMap (fun r => r[0]?) = rows.map (fun r => r.headD a0) := by
  intro rows h
  induction rows with
  | nil => rfl
  | cons r rest ih =>
    cases r with
    | nil => exact absurd rfl (h [] (List.mem_cons_self _ _))
    | cons a t =>
      simp only [List.filterMap_cons, List.getElem?_cons_zero, List.map_cons,
        List.headD_cons]
      rw [ih (fun r hr => h r (List.mem_cons_of_mem _ hr))]

theorem dfT_head {α : Type} (a0 : α) (rows : List (List α))
    (h1 : rows ≠ []) (h2 : ∀ r ∈ rows, r ≠ []) :
    (dfT rows).headD [] = rows.map (fun r => r.headD a0) := by
  obtain ⟨r0, rest, rfl⟩ : ∃ r0 rest, rows = r0 :: rest := by
    cases rows with
    | nil => exact absurd rfl h1
    | cons a t => exact ⟨a, t, rfl⟩
  obtain ⟨a, t, rfl⟩ : ∃ a t, r0 = a :: t := by
    cases r0 with
    | nil => exact absurd rfl (h2 [] (List.mem_cons_self _ _))
    | cons a t => exact ⟨a, t, rfl⟩
  unfold dfT
  simp only [List.headD_cons, List.length_cons]
  rw [List.range_succ_eq_map]
  simp only [List.map_cons, List.headD_cons]
  exact filterMap_head_eq a0 _ h2

/-- C8 (amended): on a non-empty source table each retriever returns
the pandas transpose with the first two transposed rows dropped; the
balance-sheet and cash-flow retrievers then set the column labels to
the period-end labels (the first cell of each source report, the first
transposed row), but the income-statement retriever never assigns
labels and keeps the default integer index 0..r-1. -/
theorem fundamentals_transpose {α : Type} (a0 : α) (m : Table α)
    (h1 : m.rows ≠ []) (h2 : ∀ r ∈ m.rows, r ≠ []) :
    get_balance_sheet m
        = some { colLabels := m.rows.map (fun r => ColLabel.cell (r.headD a0)),
                 rows := (dfT m.rows).drop 2 } ∧
    get_cashflow_statement m
        = some { colLabels := m.rows.map (fun r => ColLabel.cell (r.headD a0)),
                 rows := (dfT m.rows).drop 2 } ∧
    get_income_statement m
        = some { colLabels := (List.range m.rows.length).map ColLabel.idx,
                 rows := (dfT m.rows).drop 2 } := by
  have hE : m.rows.isEmpty = false := isEmpty_false_of_ne_nil h1
  have hHead := dfT_head a0 m.rows h1 h2
  refine ⟨?_, ?_, ?_⟩
  · unfold get_balance_sheet
    rw [hE]
    simp only [Bool.false_eq_true, if_false]
    rw [hHead, List.map_map]
    rfl
  · unfold get_cashflow_statement
    rw [hE]
    simp only [Bool.false_eq_true, if_false]
    rw [hHead, List.map_map]
    rfl
  · unfold get_income_statement
    rw [hE]
    simp only [Bool.false_eq_true, if_false]

/-- C8 counterexample: on a concrete two-report table the income
statement comes back with the default integer column labels, not the
period-end labels the claim requires for all three retrievers. -/
theorem income_labels_counterexample :
    (get_income_statement exFund).map LTable.colLabels
        = some [ColLabel.idx 0, ColLabel.idx 1] ∧
    (get_income_statement exFund).map LTable.colLabels
        ≠ some [ColLabel.cell "2023-12-31", ColLabel.cell "2022-12-31"] := by
  constructor
  · decide
  · decide

/-- C8 witness: the amended statement evaluated on the concrete
two-report table. -/
theorem fundamentals_transpose_witness :
    get_balance_sheet exFund
        = some { colLabels := exFund.rows.map (fun r => ColLabel.cell (r.headD "")),
                 rows := (dfT exFund.rows).drop 2 } ∧
    get_cashflow_statement exFund
        = some { colLabels := exFund.rows.map (fun r => ColLabel.cell (r.headD "")),
                 rows := (dfT exFund.rows).drop 2 } ∧
    get_income_statement exFund
        = some { colLabels := (List.range exFund.rows.length).map ColLabel.idx,
                 rows := (dfT exFund.rows).drop 2 } :=
  fundamentals_transpose "" exFund (by decide) (by decide)

/-- C9: the cached fundamentals retrievers key on nothing but the
retriever itself (the client handle argument has a leading underscore
and the ticker is a global, so neither enters the cache key): calling
the same retriever twice with the same handle and two different
tickers returns, the second time, the table computed for the first
ticker. -/
theorem cache_ignores_ticker {α : Type} (fd : FDHandle α) (t1 t2 : String)
    (c0 : FundCache α) (_h12 : t1 ≠ t2)
    (hb : c0.balance = none) (hi : c0.income = none) (hc : c0.cashflow = none) :
    (get_balance_sheet_cached fd t2 ((get_balance_sheet_cached fd t1 c0).2)).1
        = get_balance_sheet (fd.fetchBalance t1) ∧
    (get_income_statement_cached fd t2 ((get_income_statement_cached fd t1 c0).2)).1
        = get_income_statement (fd.fetchIncome t1) ∧
    (get_cashflow_statement_cached fd t2 ((get_cashflow_statement_cached fd t1 c0).2)).1
        = get_cashflow_statement (fd.fetchCashflow t1) := by
  refine ⟨?_, ?_, ?_⟩
  · simp [get_balance_sheet_cached, hb]
  · simp [get_income_statement_cached, hi]
  · simp [get_cashflow_statement_cached, hc]

/-- C9 witness: with a handle answering different tables for AAA and
BBB and an empty memo, querying AAA and then BBB returns the AAA
tables the second time. -/
theorem cache_ignores_ticker_witness :
    (get_balance_sheet_cached exFd "BBB"
        ((get_balance_sheet_cached exFd "AAA" exCache0).2)).1
      = get_balance_sheet (exFd.fetchBalance "AAA") ∧
    (get_income_statement_cached exFd "BBB"
        ((get_income_statement_cached exFd "AAA" exCache0).2)).1
      = get_income_statement (exFd.fetchIncome "AAA") ∧
    (get_cashflow_statement_cached exFd "BBB"
        ((get_cashflow_statement_cached exFd "AAA" exCache0).2)).1
      = get_cashflow_statement (exFd.fetchCashflow "AAA") :=
  cache_ignores_ticker exFd "AAA" "BBB" exCache0 (by decide) rfl rfl rfl

end StockDash
